import Mathlib

/-!
Shallow embedding of `bevy_mesh_decal` (`src/lib.rs`): the decal clipping
pipeline (`slice`, `new_triangle`, `new_quad`, the per-triangle body of
`apply_decal`), the decal mesh builder, and the budget/orchestration logic of
`decal_system`.  `f32` arithmetic is modelled over `ℚ` (exact real-number
semantics); the `u16` vertex index is modelled as `ℕ` reduced `% 65536` at
every use, matching release-mode wrapping semantics of `index += 1`.
-/

namespace MeshDecal

-- Batteries marks the `Rat` field operations `@[irreducible]`; re-enable
-- unfolding so that `decide` can evaluate the model on concrete inputs.
attribute [local semireducible] Rat.add Rat.mul Rat.sub Rat.inv Rat.ofScientific

/-- glam `Vec3` with rational coordinates. -/
structure Vec3 where
  x : ℚ
  y : ℚ
  z : ℚ
deriving DecidableEq, Repr

/-- glam `Vec2` with rational coordinates. -/
structure Vec2 where
  x : ℚ
  y : ℚ
deriving DecidableEq, Repr

instance : Add Vec3 := ⟨fun a b => ⟨a.x + b.x, a.y + b.y, a.z + b.z⟩⟩

/-- Componentwise `Vec3 * f32` (Rust scalar multiply). -/
def Vec3.scale (v : Vec3) (s : ℚ) : Vec3 := ⟨v.x * s, v.y * s, v.z * s⟩

/-- `Vec3::dot`. -/
def Vec3.dot (a b : Vec3) : ℚ := a.x * b.x + a.y * b.y + a.z * b.z

/-- glam `Vec3::lerp(self, rhs, s) = self + (rhs - self) * s`, componentwise. -/
def Vec3.lerp (a b : Vec3) (s : ℚ) : Vec3 :=
  ⟨a.x + (b.x - a.x) * s, a.y + (b.y - a.y) * s, a.z + (b.z - a.z) * s⟩

/-- glam `Vec2::lerp`. -/
def Vec2.lerp (a b : Vec2) (s : ℚ) : Vec2 :=
  ⟨a.x + (b.x - a.x) * s, a.y + (b.y - a.y) * s⟩

-- Constants from lib.rs (lines 11-13).
def DECAL_REMOVE_BACKFACES : Bool := true
def DECAL_MAX_PER_ENTTIY : ℕ := 16
def DECAL_EPSILON : ℚ := 0.00016

/-- `struct Vertex { position, normal, uv }`. -/
structure Vertex where
  position : Vec3
  normal : Vec3
  uv : Vec2
deriving DecidableEq, Repr

/-- `Vertex::lerp`: componentwise interpolation of position, normal and uv. -/
def Vertex.lerp (v : Vertex) (rhs : Vertex) (d : ℚ) : Vertex :=
  { position := v.position.lerp rhs.position d
    normal := v.normal.lerp rhs.normal d
    uv := v.uv.lerp rhs.uv d }

/-- `struct Triangle { a, b, c }`. -/
structure Triangle where
  a : Vertex
  b : Vertex
  c : Vertex
deriving DecidableEq, Repr

/-- `is_inside_unit_cube`: `p.x.abs() <= 1. && p.y.abs() <= 1. && p.z.abs() <= 1.` -/
def is_inside_unit_cube (p : Vec3) : Bool :=
  decide (|p.x| ≤ 1 ∧ |p.y| ≤ 1 ∧ |p.z| ≤ 1)

/-- The local `fa = triangle.a.position.dot(normal)` of `slice`. -/
def fA (t : Triangle) (n : Vec3) : ℚ := t.a.position.dot n

/-- The local `fb` of `slice`. -/
def fB (t : Triangle) (n : Vec3) : ℚ := t.b.position.dot n

/-- The local `fc` of `slice`. -/
def fC (t : Triangle) (n : Vec3) : ℚ := t.c.position.dot n

/-- `new_triangle`: pushes the single triangle `(a, ab, ac)` where
`ab = a.lerp(b, (1-fa)/(fb-fa))` and `ac = a.lerp(c, (1-fa)/(fc-fa))`.
Modelled as the list of pushed triangles. -/
def new_triangle (a b c : Vertex) (fa fb fc : ℚ) : List Triangle :=
  let d_ab := (1 - fa) / (fb - fa)
  let d_ac := (1 - fa) / (fc - fa)
  let ab := a.lerp b d_ab
  let ac := a.lerp c d_ac
  [{ a := a, b := ab, c := ac }]

/-- `new_quad`: pushes the two triangles `(b, c, ac)` and `(b, ac, ab)`. -/
def new_quad (a b c : Vertex) (fa fb fc : ℚ) : List Triangle :=
  let db := (1 - fa) / (fb - fa)
  let dc := (1 - fa) / (fc - fa)
  let ab := a.lerp b db
  let ac := a.lerp c dc
  [{ a := b, b := c, c := ac }, { a := b, b := ac, c := ab }]

/-- `slice`: attempt to slice `t` along the plane `dot(p, n) = 1`.
The Rust function returns `bool` and pushes emitted triangles into an output
vector; `some l` models `true` with `l` the pushed triangles (possibly empty
for the all-outside reject), `none` models `false` (triangle not sliced). -/
def slice (t : Triangle) (n : Vec3) : Option (List Triangle) :=
  if fA t n > 1 ∧ fB t n > 1 ∧ fC t n > 1 then
    some []
  else if fA t n < 1 ∧ fB t n > 1 ∧ fC t n > 1 then
    some (new_triangle t.a t.b t.c (fA t n) (fB t n) (fC t n))
  else if fA t n > 1 ∧ fB t n < 1 ∧ fC t n > 1 then
    some (new_triangle t.b t.c t.a (fB t n) (fC t n) (fA t n))
  else if fA t n > 1 ∧ fB t n > 1 ∧ fC t n < 1 then
    some (new_triangle t.c t.a t.b (fC t n) (fA t n) (fB t n))
  else if fA t n > 1 ∧ fB t n < 1 ∧ fC t n < 1 then
    some (new_quad t.a t.b t.c (fA t n) (fB t n) (fC t n))
  else if fA t n < 1 ∧ fB t n > 1 ∧ fC t n < 1 then
    some (new_quad t.b t.c t.a (fB t n) (fC t n) (fA t n))
  else if fA t n < 1 ∧ fB t n < 1 ∧ fC t n > 1 then
    some (new_quad t.c t.a t.b (fC t n) (fA t n) (fB t n))
  else
    none

def vX : Vec3 := ⟨1, 0, 0⟩
def vY : Vec3 := ⟨0, 1, 0⟩
def vZ : Vec3 := ⟨0, 0, 1⟩
def vNegX : Vec3 := ⟨-1, 0, 0⟩
def vNegY : Vec3 := ⟨0, -1, 0⟩
def vNegZ : Vec3 := ⟨0, 0, -1⟩

/-- The `axii` array of `apply_decal`: `[X, Y, Z, NEG_X, NEG_Y, NEG_Z]`. -/
def axii : List Vec3 := [vX, vY, vZ, vNegX, vNegY, vNegZ]

/-- One plane pass of the double-buffered loop in `apply_decal` (lines
278-290): every triangle of the input buffer is popped and either replaced by
the triangles `slice` emits or pushed through unchanged.  The pop/push order
only permutes the buffer, so the pass is modelled as a `bind` over the list. -/
def clipStep (ts : List Triangle) (n : Vec3) : List Triangle :=
  ts.flatMap fun tri => (slice tri n).getD [tri]

/-- Sequential clipping of one source triangle against the six face planes. -/
def clipAgainstPlanes (t : Triangle) : List Triangle :=
  axii.foldl clipStep [t]

/-- The trivial-reject loop of `apply_decal` (lines 236-249): discard if all
three dots exceed 1 against any of the six axes. -/
def trivialReject (t : Triangle) : Bool :=
  axii.any fun axis => decide (fA t axis > 1 ∧ fB t axis > 1 ∧ fC t axis > 1)

/-- The per-triangle body of `apply_decal` (lines 236-294), for a triangle
already transformed into projector-local space: trivial reject, backface
rejection, fast accept, else sequential clipping. -/
def processTriangle (t : Triangle) : List Triangle :=
  if trivialReject t then
    []
  else if DECAL_REMOVE_BACKFACES &&
      decide ((t.a.normal + t.b.normal + t.c.normal).z < 0) then
    []
  else if is_inside_unit_cube t.a.position && is_inside_unit_cube t.b.position
      && is_inside_unit_cube t.c.position then
    [t]
  else
    clipAgainstPlanes t

/-- Target of the decal mesh builder (`apply_decal` lines 298-341). -/
structure DecalMesh where
  positions : List Vec3
  normals : List Vec3
  uvs : List Vec2
  indices : List ℕ
deriving DecidableEq, Repr

/-- The index list built by the loop `indices.push(index); index += 1;`
(three pushes per triangle) with the `u16` counter modelled as a running
`ℕ` reduced `% 65536` at each push — release-mode wrapping semantics. -/
def buildIndicesGo : ℕ → ℕ → List ℕ
  | 0, _ => []
  | n + 1, i => i % 65536 :: (i + 1) % 65536 :: (i + 2) % 65536 :: buildIndicesGo n (i + 3)

/-- Index list for `n` clipped triangles, starting from `index = 0`. -/
def buildIndices (n : ℕ) : List ℕ := buildIndicesGo n 0

/-- The mesh-building tail of `apply_decal` (lines 298-341): flatten the
clipped triangles into unshared position/normal triples with sequential
indices, return `none` when no geometry survived, and otherwise derive the
UV of each vertex from its clip-space position as
`(pos.x*0.5+0.5, pos.y*0.5+0.5)`. -/
def buildMesh (tris : List Triangle) : Option DecalMesh :=
  let positions := tris.flatMap fun t => [t.a.position, t.b.position, t.c.position]
  let normals := tris.flatMap fun t => [t.a.normal, t.b.normal, t.c.normal]
  let indices := buildIndices tris.length
  if positions.length = 0 then
    none
  else
    some { positions := positions
           normals := normals
           uvs := positions.map fun p => ⟨p.x * 0.5 + 0.5, p.y * 0.5 + 0.5⟩
           indices := indices }

/-- `bevy::render::mesh::VertexAttributeValues`, restricted to the variants
the format checks of `apply_decal` distinguish. -/
inductive VertexAttributeValues where
  | Float32x3 (values : List Vec3)
  | Float32x2 (values : List Vec2)
deriving DecidableEq, Repr

/-- `bevy::render::mesh::Indices`, restricted likewise. -/
inductive MeshIndices where
  | U16 (values : List ℕ)
  | U32 (values : List ℕ)
deriving DecidableEq, Repr

/-- A source `Mesh` as read by `apply_decal`: position attribute, normal
attribute, index list. -/
structure SrcMesh where
  positions : VertexAttributeValues
  normals : VertexAttributeValues
  indices : MeshIndices
deriving DecidableEq, Repr

/-- `indices.chunks(3)` over complete index triples. -/
def chunks3 : List ℕ → List (ℕ × ℕ × ℕ)
  | i0 :: i1 :: i2 :: rest => (i0, i1, i2) :: chunks3 rest
  | _ => []

/-- Attribute lookup `vertex_attribute[i]`. -/
def getVec (l : List Vec3) (i : ℕ) : Vec3 := l.getD i ⟨0, 0, 0⟩

/-- `apply_decal`.  The affine map
`p ↦ decal_proj.transform_point3(mesh_transform.transform_point(p))` is the
parameter `toLocal`, and the rotation
`n ↦ inv_decal_transform.rotation * (mesh_transform.rotation * n)` is the
parameter `rotN` (both are external `glam`/`bevy` transform arithmetic).
The three `panic!` format checks are modelled as `Except.error` carrying the
panic message, in source order: positions, then normals, then indices. -/
def apply_decal (toLocal : Vec3 → Vec3) (rotN : Vec3 → Vec3) (offset : ℚ)
    (mesh : SrcMesh) : Except String (Option DecalMesh) :=
  match mesh.positions with
  | .Float32x3 vertex_attribute =>
    match mesh.normals with
    | .Float32x3 normal_attribute =>
      match mesh.indices with
      | .U16 indices =>
        let new_triangles := (chunks3 indices).flatMap fun triple =>
          let pA := toLocal (getVec vertex_attribute triple.1 +
            (getVec normal_attribute triple.1).scale offset)
          let pB := toLocal (getVec vertex_attribute triple.2.1 +
            (getVec normal_attribute triple.2.1).scale offset)
          let pC := toLocal (getVec vertex_attribute triple.2.2 +
            (getVec normal_attribute triple.2.2).scale offset)
          let nA := rotN (getVec normal_attribute triple.1)
          let nB := rotN (getVec normal_attribute triple.2.1)
          let nC := rotN (getVec normal_attribute triple.2.2)
          processTriangle
            { a := { position := pA, normal := nA, uv := ⟨0, 0⟩ }
              b := { position := pB, normal := nB, uv := ⟨0, 0⟩ }
              c := { position := pC, normal := nC, uv := ⟨0, 0⟩ } }
        Except.ok (buildMesh new_triangles)
      | _ => Except.error "Unexpected indices format, expected U16."
    | _ => Except.error "Unexpected normal format, expected Float32x3."
  | _ => Except.error "Unexpected vertex format, expected Float32x3."

/-- The body of the models loop of `decal_system` (lines 352-375) for one
(request, target) pair: skip a target whose budget is exhausted, otherwise
run `apply_decal` with the z-fighting offset `(budget + 1) * DECAL_EPSILON`
and increment the budget exactly when a mesh was produced. -/
def decal_system_step (toLocal rotN : Vec3 → Vec3) (budget : ℕ)
    (mesh : SrcMesh) : Except String (ℕ × Option DecalMesh) :=
  if budget ≥ DECAL_MAX_PER_ENTTIY then
    Except.ok (budget, none)
  else
    match apply_decal toLocal rotN ((budget + 1 : ℚ) * DECAL_EPSILON) mesh with
    | .error e => Except.error e
    | .ok (some m) => Except.ok (budget + 1, some m)
    | .ok none => Except.ok (budget, none)

/-- The models loop of `decal_system` for a single request: each target
carries its own budget.  A `panic!` inside `apply_decal` aborts the whole
system run, modelled by the propagated `Except.error`. -/
def decal_system (toLocal rotN : Vec3 → Vec3) :
    List (ℕ × SrcMesh) → Except String (List (ℕ × Option DecalMesh))
  | [] => Except.ok []
  | (b, m) :: rest =>
    match decal_system_step toLocal rotN b m with
    | .error e => Except.error e
    | .ok r =>
      match decal_system toLocal rotN rest with
      | .error e => Except.error e
      | .ok rs => Except.ok (r :: rs)

/-- Successive decal requests all hitting one target surface: the budget is
threaded through `decal_system_step` once per request. -/
def runRequests (toLocal rotN : Vec3 → Vec3) :
    List SrcMesh → ℕ → Except String ℕ
  | [], b => Except.ok b
  | m :: rest, b =>
    match decal_system_step toLocal rotN b m with
    | .error e => Except.error e
    | .ok r => runRequests toLocal rotN rest r.1

/-! ### Basic facts about dots, interpolation and the six axes -/

lemma dot_vX (p : Vec3) : p.dot vX = p.x := by
  simp [Vec3.dot, vX]

lemma dot_vY (p : Vec3) : p.dot vY = p.y := by
  simp [Vec3.dot, vY]

lemma dot_vZ (p : Vec3) : p.dot vZ = p.z := by
  simp [Vec3.dot, vZ]

lemma dot_vNegX (p : Vec3) : p.dot vNegX = -p.x := by
  simp [Vec3.dot, vNegX]

lemma dot_vNegY (p : Vec3) : p.dot vNegY = -p.y := by
  simp [Vec3.dot, vNegY]

lemma dot_vNegZ (p : Vec3) : p.dot vNegZ = -p.z := by
  simp [Vec3.dot, vNegZ]

lemma dot_lerp (a b n : Vec3) (s : ℚ) :
    (a.lerp b s).dot n = a.dot n + s * (b.dot n - a.dot n) := by
  simp only [Vec3.lerp, Vec3.dot]
  ring

/-- Interpolating at the parameter `(1 - fa) / (fb - fa)` lands exactly on
the plane `dot = 1`, whenever the edge actually crosses it. -/
lemma dot_lerp_param (a b n : Vec3) (h : a.dot n ≠ b.dot n) :
    (a.lerp b ((1 - a.dot n) / (b.dot n - a.dot n))).dot n = 1 := by
  have hne : b.dot n - a.dot n ≠ 0 := sub_ne_zero.mpr (Ne.symm h)
  rw [dot_lerp]
  field_simp

/-- The clip parameter lies in `[0, 1]` when the two endpoint dots straddle 1
(in either order). -/
lemma param_unit (fa fb : ℚ) (h : fa < 1 ∧ 1 < fb ∨ fb < 1 ∧ 1 < fa) :
    0 ≤ (1 - fa) / (fb - fa) ∧ (1 - fa) / (fb - fa) ≤ 1 := by
  rcases h with ⟨h1, h2⟩ | ⟨h1, h2⟩
  · constructor
    · exact div_nonneg (by linarith) (by linarith)
    · rw [div_le_one (by linarith)]
      linarith
  · have he : (1 - fa) / (fb - fa) = (fa - 1) / (fa - fb) := by
      rw [show fa - 1 = -(1 - fa) by ring, show fa - fb = -(fb - fa) by ring,
        neg_div_neg_eq]
    rw [he]
    constructor
    · exact div_nonneg (by linarith) (by linarith)
    · rw [div_le_one (by linarith)]
      linarith

/-- Interpolation with a parameter in `[0, 1]` keeps any dot bound of both
endpoints. -/
lemma lerp_dot_le (a b n : Vec3) (s : ℚ) (ha : a.dot n ≤ 1) (hb : b.dot n ≤ 1)
    (h0 : 0 ≤ s) (h1 : s ≤ 1) : (a.lerp b s).dot n ≤ 1 := by
  rw [dot_lerp]
  nlinarith

/-- A vertex with dot exactly 1 defeats every strict branch pattern of
`slice` (each pattern constrains all three dots strictly), so the triangle
is reported as not sliced. -/
lemma slice_boundary_none (t : Triangle) (n : Vec3)
    (hb : fA t n = 1 ∨ fB t n = 1 ∨ fC t n = 1) : slice t n = none := by
  have h1 : ¬(fA t n > 1 ∧ fB t n > 1 ∧ fC t n > 1) := by
    rintro ⟨u, v, w⟩; rcases hb with h | h | h <;> linarith
  have h2 : ¬(fA t n < 1 ∧ fB t n > 1 ∧ fC t n > 1) := by
    rintro ⟨u, v, w⟩; rcases hb with h | h | h <;> linarith
  have h3 : ¬(fA t n > 1 ∧ fB t n < 1 ∧ fC t n > 1) := by
    rintro ⟨u, v, w⟩; rcases hb with h | h | h <;> linarith
  have h4 : ¬(fA t n > 1 ∧ fB t n > 1 ∧ fC t n < 1) := by
    rintro ⟨u, v, w⟩; rcases hb with h | h | h <;> linarith
  have h5 : ¬(fA t n > 1 ∧ fB t n < 1 ∧ fC t n < 1) := by
    rintro ⟨u, v, w⟩; rcases hb with h | h | h <;> linarith
  have h6 : ¬(fA t n < 1 ∧ fB t n > 1 ∧ fC t n < 1) := by
    rintro ⟨u, v, w⟩; rcases hb with h | h | h <;> linarith
  have h7 : ¬(fA t n < 1 ∧ fB t n < 1 ∧ fC t n > 1) := by
    rintro ⟨u, v, w⟩; rcases hb with h | h | h <;> linarith
  unfold slice
  rw [if_neg h1, if_neg h2, if_neg h3, if_neg h4, if_neg h5, if_neg h6,
    if_neg h7]

/-- C10: whenever some vertex of a triangle has dot exactly equal to 1
against a plane (and the vertices are not all strictly outside it), none of
the strict-comparison branch patterns of `slice` matches: the clipper
reports the triangle as not sliced and the plane pass of the pipeline
forwards it to the next plane completely unchanged, even if another vertex
lies strictly outside the plane. -/
theorem boundary_vertex_passthrough (t : Triangle) (n : Vec3)
    (hb : fA t n = 1 ∨ fB t n = 1 ∨ fC t n = 1)
    (_hno : ¬(fA t n > 1 ∧ fB t n > 1 ∧ fC t n > 1)) :
    slice t n = none ∧ clipStep [t] n = [t] := by
  have hs := slice_boundary_none t n hb
  refine ⟨hs, ?_⟩
  simp [clipStep, hs]

/-- Helper to build test vertices. -/
def mkV (p : Vec3) (nz : ℚ) : Vertex :=
  { position := p, normal := ⟨0, 0, nz⟩, uv := ⟨0, 0⟩ }

/-- A triangle whose vertex `a` lies exactly on the `+X` plane while `b`
lies strictly outside it. -/
def boundaryTri : Triangle :=
  ⟨mkV ⟨1, 0, 0⟩ 1, mkV ⟨2, 1/2, 0⟩ 1, mkV ⟨0, -1/2, 0⟩ 1⟩

/-- Witness for `boundary_vertex_passthrough` at `boundaryTri` and `+X`. -/
theorem boundary_vertex_passthrough_witness :
    (fA boundaryTri vX = 1 ∨ fB boundaryTri vX = 1 ∨ fC boundaryTri vX = 1) ∧
      slice boundaryTri vX = none ∧ clipStep [boundaryTri] vX = [boundaryTri] :=
  ⟨by decide, boundary_vertex_passthrough boundaryTri vX (by decide) (by decide)⟩

/-- C4: a source triangle all of whose vertices have dot strictly greater
than 1 against one of the six face axes is discarded by the trivial-reject
loop of `apply_decal` and contributes zero output triangles. -/
theorem trivial_reject_zero_output (t : Triangle)
    (h : ∃ axis ∈ axii, fA t axis > 1 ∧ fB t axis > 1 ∧ fC t axis > 1) :
    processTriangle t = [] := by
  have hr : trivialReject t = true := by
    rw [trivialReject, List.any_eq_true]
    obtain ⟨a, ha, hd⟩ := h
    exact ⟨a, ha, by simpa using hd⟩
  unfold processTriangle
  rw [if_pos hr]

/-- A triangle entirely beyond the `+X` face. -/
def rejectedTri : Triangle :=
  ⟨mkV ⟨2, 0, 0⟩ 1, mkV ⟨3, 0, 0⟩ 1, mkV ⟨2, 1, 0⟩ 1⟩

/-- Witness for `trivial_reject_zero_output` at `rejectedTri`. -/
theorem trivial_reject_zero_output_witness :
    (∃ axis ∈ axii, fA rejectedTri axis > 1 ∧ fB rejectedTri axis > 1 ∧
      fC rejectedTri axis > 1) ∧ processTriangle rejectedTri = [] :=
  ⟨by decide, trivial_reject_zero_output rejectedTri (by decide)⟩

/-! ### C5: fast accept -/

/-- A triangle fully inside the unit cube whose normals all face away from
the projector (`z`-sum negative). -/
def backfaceTri : Triangle :=
  ⟨mkV ⟨0, 0, 0⟩ (-1), mkV ⟨1/2, 0, 0⟩ (-1), mkV ⟨0, 1/2, 0⟩ (-1)⟩

/-- C5 counterexample: `backfaceTri` has all three vertex positions with
every coordinate of absolute value at most 1, yet the pipeline does not keep
it: backface rejection (which runs before the fast-accept check) discards it
entirely, so the output is `[]`, not the unchanged triangle. -/
theorem fast_accept_backface_counterexample :
    (is_inside_unit_cube backfaceTri.a.position = true ∧
      is_inside_unit_cube backfaceTri.b.position = true ∧
      is_inside_unit_cube backfaceTri.c.position = true) ∧
    processTriangle backfaceTri = [] ∧
    processTriangle backfaceTri ≠ [backfaceTri] := by
  refine ⟨by decide, by decide, by decide⟩

/-- C5 (amended): a source triangle whose three positions satisfy
`|coordinate| ≤ 1` on every axis and which additionally survives backface
rejection (the z-component of the summed normals is nonnegative) is kept
unchanged by the fast-accept path, skipping per-plane clipping. -/
theorem fast_accept_identity (t : Triangle)
    (hin : is_inside_unit_cube t.a.position = true ∧
      is_inside_unit_cube t.b.position = true ∧
      is_inside_unit_cube t.c.position = true)
    (hbf : 0 ≤ (t.a.normal + t.b.normal + t.c.normal).z) :
    processTriangle t = [t] := by
  obtain ⟨hA, hB, hC⟩ := hin
  simp only [is_inside_unit_cube, decide_eq_true_eq] at hA hB hC
  obtain ⟨hax, hay, haz⟩ := hA
  obtain ⟨hbx, hby, hbz⟩ := hB
  obtain ⟨hcx, hcy, hcz⟩ := hC
  rw [abs_le] at hax hay haz hbx hby hbz hcx hcy hcz
  have hr : trivialReject t = false := by
    rw [trivialReject]
    simp only [axii, List.any_cons, List.any_nil, Bool.or_eq_false_iff,
      decide_eq_false_iff_not]
    refine ⟨?_, ?_, ?_, ?_, ?_, ?_, trivial⟩ <;>
      rintro ⟨u, v, w⟩ <;>
      simp only [fA, fB, fC, dot_vX, dot_vY, dot_vZ, dot_vNegX, dot_vNegY,
        dot_vNegZ] at u v w <;>
      linarith
  have hbf2 : (DECAL_REMOVE_BACKFACES &&
      decide ((t.a.normal + t.b.normal + t.c.normal).z < 0)) = false := by
    simp only [DECAL_REMOVE_BACKFACES, Bool.true_and, decide_eq_false_iff_not,
      not_lt]
    exact hbf
  have hacc : (is_inside_unit_cube t.a.position &&
      is_inside_unit_cube t.b.position &&
      is_inside_unit_cube t.c.position) = true := by
    simp only [Bool.and_eq_true, is_inside_unit_cube, decide_eq_true_eq]
    refine ⟨⟨⟨?_, ?_, ?_⟩, ?_, ?_, ?_⟩, ?_, ?_, ?_⟩ <;> rw [abs_le] <;>
      first
        | exact hax | exact hay | exact haz
        | exact hbx | exact hby | exact hbz
        | exact hcx | exact hcy | exact hcz
  unfold processTriangle
  rw [hr, hbf2, hacc]
  simp

/-- A fully inside, front-facing triangle. -/
def insideTri : Triangle :=
  ⟨mkV ⟨0, 0, 0⟩ 1, mkV ⟨1/2, 0, 0⟩ 1, mkV ⟨0, 1/2, 0⟩ 1⟩

/-- Witness for `fast_accept_identity` at `insideTri`. -/
theorem fast_accept_identity_witness :
    (is_inside_unit_cube insideTri.a.position = true ∧
      is_inside_unit_cube insideTri.b.position = true ∧
      is_inside_unit_cube insideTri.c.position = true) ∧
    processTriangle insideTri = [insideTri] :=
  ⟨by decide, fast_accept_identity insideTri (by decide) (by decide)⟩

/-! ### C6: UV mapping -/

/-- In a built decal mesh the uv list is the position list mapped through
the planar projection formula. -/
lemma buildMesh_uvs (tris : List Triangle) (m : DecalMesh)
    (hm : buildMesh tris = some m) :
    m.uvs = m.positions.map fun p => (⟨p.x * 0.5 + 0.5, p.y * 0.5 + 0.5⟩ : Vec2) := by
  simp only [buildMesh] at hm
  split_ifs at hm
  cases hm
  rfl

/-- C6: every vertex emitted into the decal mesh at clip-space position
`(x, y, z)` receives the UV `(x*0.5+0.5, y*0.5+0.5)` exactly — derived
purely from the clip-space `x` and `y`, independent of `z` and of the
source mesh's own UVs. -/
theorem uv_from_clip_position (tris : List Triangle) (m : DecalMesh)
    (i : ℕ) (p : Vec3) (hm : buildMesh tris = some m)
    (hp : m.positions[i]? = some p) :
    m.uvs[i]? = some ⟨p.x * 0.5 + 0.5, p.y * 0.5 + 0.5⟩ := by
  rw [buildMesh_uvs tris m hm, List.getElem?_map, hp, Option.map_some']

/-- A one-triangle input for the mesh builder. -/
def builderTri : Triangle :=
  ⟨mkV ⟨0, 0, 0⟩ 1, mkV ⟨1, 0, 0⟩ 1, mkV ⟨0, 1, 0⟩ 1⟩

/-- The decal mesh the builder produces from `[builderTri]`. -/
def builtMesh : DecalMesh :=
  { positions := [⟨0, 0, 0⟩, ⟨1, 0, 0⟩, ⟨0, 1, 0⟩]
    normals := [⟨0, 0, 1⟩, ⟨0, 0, 1⟩, ⟨0, 0, 1⟩]
    uvs := [⟨1/2, 1/2⟩, ⟨1, 1/2⟩, ⟨1/2, 1⟩]
    indices := [0, 1, 2] }

/-- Witness for `uv_from_clip_position` on `[builderTri]` at index 0. -/
theorem uv_from_clip_position_witness :
    buildMesh [builderTri] = some builtMesh ∧
      builtMesh.positions[0]? = some ⟨0, 0, 0⟩ ∧
      builtMesh.uvs[0]? = some ⟨(0 : ℚ) * 0.5 + 0.5, (0 : ℚ) * 0.5 + 0.5⟩ :=
  ⟨by decide, by decide,
    uv_from_clip_position [builderTri] builtMesh 0 ⟨0, 0, 0⟩ (by decide) (by decide)⟩

/-! ### C8: 16-bit index wraparound -/

/-- Closed form of the index-building loop: push counter values in order,
each reduced modulo `2^16`. -/
lemma buildIndicesGo_eq (n : ℕ) :
    ∀ i, buildIndicesGo n i = (List.range' i (3 * n)).map (· % 65536) := by
  induction n with
  | zero => intro i; rfl
  | succ k ih =>
    intro i
    have h3 : 3 * (k + 1) = 3 * k + 1 + 1 + 1 := by ring
    rw [buildIndicesGo, h3, List.range'_succ, List.range'_succ, List.range'_succ,
      List.map_cons, List.map_cons, List.map_cons, ih (i + 1 + 1 + 1)]

/-- Closed form of `buildIndices`. -/
lemma buildIndices_eq (n : ℕ) :
    buildIndices n = (List.range (3 * n)).map (· % 65536) := by
  rw [buildIndices, buildIndicesGo_eq, List.range_eq_range']

/-- C8 (code bug evaluated at the failing input): a clipped-triangle list of
21846 triangles yields 65538 vertices — beyond the 16-bit limit of 65535 —
and the index list the builder emits silently wraps: position 65536 holds
index 0 again (repeated from zero), instead of the decal attempt being
abandoned and signaled as an overflow. -/
theorem index_wraparound_at_failing_input :
    (buildIndices 21846).length = 65538 ∧
      (buildIndices 21846)[0]? = some 0 ∧
      (buildIndices 21846)[65536]? = some 0 := by
  rw [buildIndices_eq]
  refine ⟨?_, ?_, ?_⟩
  · rw [List.length_map, List.length_range]
  · rw [List.getElem?_map, List.getElem?_range (by norm_num)]
    rfl
  · rw [List.getElem?_map, List.getElem?_range (by norm_num)]
    rfl

/-! ### C7: per-surface decal budget -/

/-- A target at or above the budget maximum is skipped: no geometry, budget
untouched. -/
lemma decal_step_skip (toLocal rotN : Vec3 → Vec3) (b : ℕ) (mesh : SrcMesh)
    (hb : DECAL_MAX_PER_ENTTIY ≤ b) :
    decal_system_step toLocal rotN b mesh = .ok (b, none) := by
  unfold decal_system_step
  rw [if_pos hb]

/-- A successful step never decreases the budget, increments it exactly when
a mesh was produced, and keeps it at or below the maximum. -/
lemma decal_step_mono (toLocal rotN : Vec3 → Vec3) (b : ℕ) (mesh : SrcMesh)
    (b' : ℕ) (r : Option DecalMesh)
    (h : decal_system_step toLocal rotN b mesh = .ok (b', r)) :
    b ≤ b' ∧ (r.isSome → b' = b + 1) ∧ (r = none → b' = b) ∧
      (b ≤ DECAL_MAX_PER_ENTTIY → b' ≤ DECAL_MAX_PER_ENTTIY) := by
  unfold decal_system_step at h
  split_ifs at h with hb
  · cases h
    exact ⟨le_refl b, by simp, fun _ => rfl, fun hm => hm⟩
  · rcases happ : apply_decal toLocal rotN ((b + 1 : ℚ) * DECAL_EPSILON) mesh with e | o
    · rw [happ] at h
      cases h
    · rw [happ] at h
      cases o with
      | none =>
        cases h
        exact ⟨le_refl b, by simp, fun _ => rfl, fun hm => hm⟩
      | some m =>
        cases h
        refine ⟨Nat.le_succ b, fun _ => rfl, by simp, fun _ => ?_⟩
        omega

/-- Budget facts lift through any sequence of requests against one target. -/
lemma runRequests_mono (toLocal rotN : Vec3 → Vec3) (ms : List SrcMesh) :
    ∀ b b', runRequests toLocal rotN ms b = .ok b' →
      b ≤ b' ∧ (b ≤ DECAL_MAX_PER_ENTTIY → b' ≤ DECAL_MAX_PER_ENTTIY) := by
  induction ms with
  | nil =>
    intro b b' h
    cases h
    exact ⟨le_refl b, fun hm => hm⟩
  | cons m rest ih =>
    intro b b' h
    unfold runRequests at h
    rcases hstep : decal_system_step toLocal rotN b m with e | r
    · rw [hstep] at h
      cases h
    · rw [hstep] at h
      obtain ⟨h1, _, _, h4⟩ := decal_step_mono toLocal rotN b m r.1 r.2 (by rw [hstep])
      obtain ⟨h5, h6⟩ := ih r.1 b' h
      exact ⟨le_trans h1 h5, fun hm => h6 (h4 hm)⟩

/-- C7: the per-surface decal budget (maximum `DECAL_MAX_PER_ENTTIY = 16`)
never exceeds the maximum and never decreases: a surface at or above the
maximum is skipped with no new geometry and an unchanged counter; a
successful step increments the counter by exactly 1 exactly when the clip
attempt produced a mesh; and across any sequence of requests the counter is
monotone and stays at or below the maximum. -/
theorem decal_budget_enforcement (toLocal rotN : Vec3 → Vec3) :
    DECAL_MAX_PER_ENTTIY = 16 ∧
    (∀ b mesh, DECAL_MAX_PER_ENTTIY ≤ b →
      decal_system_step toLocal rotN b mesh = .ok (b, none)) ∧
    (∀ b mesh b' r, decal_system_step toLocal rotN b mesh = .ok (b', r) →
      b ≤ b' ∧ (r.isSome → b' = b + 1) ∧ (r = none → b' = b) ∧
        (b ≤ DECAL_MAX_PER_ENTTIY → b' ≤ DECAL_MAX_PER_ENTTIY)) ∧
    (∀ ms b b', runRequests toLocal rotN ms b = .ok b' →
      b ≤ b' ∧ (b ≤ DECAL_MAX_PER_ENTTIY → b' ≤ DECAL_MAX_PER_ENTTIY)) :=
  ⟨rfl, decal_step_skip toLocal rotN, decal_step_mono toLocal rotN,
    fun ms => runRequests_mono toLocal rotN ms⟩

/-- A well-formed but empty source mesh. -/
def emptyMesh : SrcMesh :=
  ⟨.Float32x3 [], .Float32x3 [], .U16 []⟩

/-- Witness for `decal_budget_enforcement`: the 17th request against a
target whose budget sits at the maximum of 16 is skipped. -/
theorem decal_budget_enforcement_witness :
    decal_system_step id id 16 emptyMesh = .ok (16, none) :=
  (decal_budget_enforcement id id).2.1 16 emptyMesh (by decide)

/-! ### C9: unsupported mesh format -/

/-- A mesh whose attribute layout is not float3 positions / float3 normals /
u16 indices makes `apply_decal` hit one of its `panic!` format checks. -/
lemma apply_decal_bad_format (toLocal rotN : Vec3 → Vec3) (offset : ℚ)
    (mesh : SrcMesh)
    (hbad : ∀ va na idx, ¬(mesh.positions = .Float32x3 va ∧
      mesh.normals = .Float32x3 na ∧ mesh.indices = .U16 idx)) :
    ∃ e, apply_decal toLocal rotN offset mesh = .error e := by
  obtain ⟨pos, norm, idx⟩ := mesh
  cases pos with
  | Float32x2 v => exact ⟨_, rfl⟩
  | Float32x3 va =>
    cases norm with
    | Float32x2 v => exact ⟨_, rfl⟩
    | Float32x3 na =>
      cases idx with
      | U32 v => exact ⟨_, rfl⟩
      | U16 iv => exact absurd ⟨rfl, rfl, rfl⟩ (hbad va na iv)

/-- C9 (amended): a source mesh that is not in the expected
float3-position/float3-normal/u16-index layout does not fail non-fatally —
the `panic!` aborts the whole pass: the system run over the remaining
targets returns an error and produces no results at all. -/
theorem bad_format_aborts_pass (toLocal rotN : Vec3 → Vec3) (b : ℕ)
    (mesh : SrcMesh) (rest : List (ℕ × SrcMesh))
    (hb : b < DECAL_MAX_PER_ENTTIY)
    (hbad : ∀ va na idx, ¬(mesh.positions = .Float32x3 va ∧
      mesh.normals = .Float32x3 na ∧ mesh.indices = .U16 idx)) :
    ∃ e, decal_system toLocal rotN ((b, mesh) :: rest) = .error e := by
  obtain ⟨e, he⟩ :=
    apply_decal_bad_format toLocal rotN ((b + 1 : ℚ) * DECAL_EPSILON) mesh hbad
  have hstep : decal_system_step toLocal rotN b mesh = .error e := by
    unfold decal_system_step
    rw [if_neg (by omega), he]
  refine ⟨e, ?_⟩
  unfold decal_system
  rw [hstep]

/-- A mesh with positions in an unexpected `Float32x2` layout. -/
def badMesh : SrcMesh :=
  ⟨.Float32x2 [], .Float32x3 [], .U16 []⟩

/-- C9 counterexample: with a bad-format surface first in the pass, the
whole pass aborts with the vertex-format panic message; the second,
well-formed surface is never processed and no result list is produced —
the surface is not skipped non-fatally as the claim states. -/
theorem bad_format_aborts_pass_counterexample :
    decal_system id id [(0, badMesh), (0, emptyMesh)] =
      .error "Unexpected vertex format, expected Float32x3." := by
  rfl

/-- Witness for `bad_format_aborts_pass` at `badMesh`. -/
theorem bad_format_aborts_pass_witness :
    ∃ e, decal_system id id [(0, badMesh)] = .error e :=
  bad_format_aborts_pass id id 0 badMesh [] (by decide)
    (fun va na idx h => by simp [badMesh] at h)

/-! ### Branch evaluation lemmas for `slice` -/

lemma slice_case_tri_a (t : Triangle) (n : Vec3)
    (h : fA t n < 1 ∧ fB t n > 1 ∧ fC t n > 1) :
    slice t n = some (new_triangle t.a t.b t.c (fA t n) (fB t n) (fC t n)) := by
  obtain ⟨ha, hb, hc⟩ := h
  unfold slice
  rw [if_neg (by rintro ⟨u, -, -⟩; linarith), if_pos ⟨ha, hb, hc⟩]

lemma slice_case_tri_b (t : Triangle) (n : Vec3)
    (h : fA t n > 1 ∧ fB t n < 1 ∧ fC t n > 1) :
    slice t n = some (new_triangle t.b t.c t.a (fB t n) (fC t n) (fA t n)) := by
  obtain ⟨ha, hb, hc⟩ := h
  unfold slice
  rw [if_neg (by rintro ⟨-, v, -⟩; linarith), if_neg (by rintro ⟨u, -, -⟩; linarith),
    if_pos ⟨ha, hb, hc⟩]

lemma slice_case_tri_c (t : Triangle) (n : Vec3)
    (h : fA t n > 1 ∧ fB t n > 1 ∧ fC t n < 1) :
    slice t n = some (new_triangle t.c t.a t.b (fC t n) (fA t n) (fB t n)) := by
  obtain ⟨ha, hb, hc⟩ := h
  unfold slice
  rw [if_neg (by rintro ⟨-, -, w⟩; linarith), if_neg (by rintro ⟨u, -, -⟩; linarith),
    if_neg (by rintro ⟨-, v, -⟩; linarith), if_pos ⟨ha, hb, hc⟩]

lemma slice_case_quad_a (t : Triangle) (n : Vec3)
    (h : fA t n > 1 ∧ fB t n < 1 ∧ fC t n < 1) :
    slice t n = some (new_quad t.a t.b t.c (fA t n) (fB t n) (fC t n)) := by
  obtain ⟨ha, hb, hc⟩ := h
  unfold slice
  rw [if_neg (by rintro ⟨-, v, -⟩; linarith), if_neg (by rintro ⟨u, -, -⟩; linarith),
    if_neg (by rintro ⟨-, -, w⟩; linarith), if_neg (by rintro ⟨-, v, -⟩; linarith),
    if_pos ⟨ha, hb, hc⟩]

lemma slice_case_quad_b (t : Triangle) (n : Vec3)
    (h : fA t n < 1 ∧ fB t n > 1 ∧ fC t n < 1) :
    slice t n = some (new_quad t.b t.c t.a (fB t n) (fC t n) (fA t n)) := by
  obtain ⟨ha, hb, hc⟩ := h
  unfold slice
  rw [if_neg (by rintro ⟨u, -, -⟩; linarith), if_neg (by rintro ⟨-, -, w⟩; linarith),
    if_neg (by rintro ⟨u, -, -⟩; linarith), if_neg (by rintro ⟨u, -, -⟩; linarith),
    if_neg (by rintro ⟨u, -, -⟩; linarith), if_pos ⟨ha, hb, hc⟩]

lemma slice_case_quad_c (t : Triangle) (n : Vec3)
    (h : fA t n < 1 ∧ fB t n < 1 ∧ fC t n > 1) :
    slice t n = some (new_quad t.c t.a t.b (fC t n) (fA t n) (fB t n)) := by
  obtain ⟨ha, hb, hc⟩ := h
  unfold slice
  rw [if_neg (by rintro ⟨u, -, -⟩; linarith), if_neg (by rintro ⟨-, v, -⟩; linarith),
    if_neg (by rintro ⟨u, -, -⟩; linarith), if_neg (by rintro ⟨u, -, -⟩; linarith),
    if_neg (by rintro ⟨u, -, -⟩; linarith), if_neg (by rintro ⟨-, v, -⟩; linarith),
    if_pos ⟨ha, hb, hc⟩]

/-! ### C2 and C3: single- and double-outside clip shapes -/

/-- Exactly one vertex strictly outside the plane, the other two strictly
inside. -/
def exactlyOneOutside (t : Triangle) (n : Vec3) : Prop :=
  (fA t n > 1 ∧ fB t n < 1 ∧ fC t n < 1) ∨
  (fA t n < 1 ∧ fB t n > 1 ∧ fC t n < 1) ∨
  (fA t n < 1 ∧ fB t n < 1 ∧ fC t n > 1)

/-- Exactly two vertices strictly outside the plane, one strictly inside. -/
def exactlyTwoOutside (t : Triangle) (n : Vec3) : Prop :=
  (fA t n < 1 ∧ fB t n > 1 ∧ fC t n > 1) ∨
  (fA t n > 1 ∧ fB t n < 1 ∧ fC t n > 1) ∨
  (fA t n > 1 ∧ fB t n > 1 ∧ fC t n < 1)

/-- `v` is one of the original vertices of `t` that lies strictly inside
the plane. -/
def retainedInside (t : Triangle) (n : Vec3) (v : Vertex) : Prop :=
  (v = t.a ∧ fA t n < 1) ∨ (v = t.b ∧ fB t n < 1) ∨ (v = t.c ∧ fC t n < 1)

instance (t : Triangle) (n : Vec3) : Decidable (exactlyOneOutside t n) := by
  unfold exactlyOneOutside
  exact inferInstance

instance (t : Triangle) (n : Vec3) : Decidable (exactlyTwoOutside t n) := by
  unfold exactlyTwoOutside
  exact inferInstance

instance (t : Triangle) (n : Vec3) (v : Vertex) :
    Decidable (retainedInside t n v) := by
  unfold retainedInside
  exact inferInstance

/-- A triangle with its vertex `a` strictly outside the `+X` plane and
`b`, `c` strictly inside. -/
def oneOutTri : Triangle :=
  ⟨mkV ⟨2, 0, 0⟩ 1, mkV ⟨0, 0, 0⟩ 1, mkV ⟨0, 1, 0⟩ 1⟩

/-- C2 counterexample: at `oneOutTri` (exactly one vertex outside the `+X`
plane) the clipper emits exactly TWO output triangles — the quadrilateral
produced by `new_quad` — not the single triangle `(a, ab, ac)` the claim
states. -/
theorem one_outside_counterexample :
    exactlyOneOutside oneOutTri vX ∧
      (slice oneOutTri vX).map List.length = some 2 ∧
      (slice oneOutTri vX).map List.length ≠ some 1 := by
  refine ⟨by decide, by decide, by decide⟩

/-- C2 (amended): a triangle with exactly one vertex strictly outside one
plane and the other two strictly inside yields exactly two output triangles
(the retained quadrilateral, built by `new_quad`): every emitted vertex is
either one of the two strictly inside original vertices or a new
interpolated vertex lying exactly on the plane (`dot = 1`). -/
theorem one_outside_emits_quad (t : Triangle) (n : Vec3)
    (h : exactlyOneOutside t n) :
    ∃ l, slice t n = some l ∧ l.length = 2 ∧
      ∀ tri ∈ l, ∀ v ∈ [tri.a, tri.b, tri.c],
        retainedInside t n v ∨ v.position.dot n = 1 := by
  rcases h with ⟨ha, hb, hc⟩ | ⟨ha, hb, hc⟩ | ⟨ha, hb, hc⟩
  · have ha' : t.a.position.dot n > 1 := ha
    have hb' : t.b.position.dot n < 1 := hb
    have hc' : t.c.position.dot n < 1 := hc
    have hnab : t.a.position.dot n ≠ t.b.position.dot n := by
      intro heq; linarith
    have hnac : t.a.position.dot n ≠ t.c.position.dot n := by
      intro heq; linarith
    refine ⟨_, slice_case_quad_a t n ⟨ha, hb, hc⟩, by simp [new_quad], ?_⟩
    intro tri htri v hv
    simp only [new_quad, List.mem_cons, List.not_mem_nil, or_false] at htri
    rcases htri with rfl | rfl <;>
      simp only [List.mem_cons, List.not_mem_nil, or_false] at hv <;>
      rcases hv with rfl | rfl | rfl
    · exact Or.inl (Or.inr (Or.inl ⟨rfl, hb⟩))
    · exact Or.inl (Or.inr (Or.inr ⟨rfl, hc⟩))
    · exact Or.inr (dot_lerp_param _ _ _ hnac)
    · exact Or.inl (Or.inr (Or.inl ⟨rfl, hb⟩))
    · exact Or.inr (dot_lerp_param _ _ _ hnac)
    · exact Or.inr (dot_lerp_param _ _ _ hnab)
  · have ha' : t.a.position.dot n < 1 := ha
    have hb' : t.b.position.dot n > 1 := hb
    have hc' : t.c.position.dot n < 1 := hc
    have hnbc : t.b.position.dot n ≠ t.c.position.dot n := by
      intro heq; linarith
    have hnba : t.b.position.dot n ≠ t.a.position.dot n := by
      intro heq; linarith
    refine ⟨_, slice_case_quad_b t n ⟨ha, hb, hc⟩, by simp [new_quad], ?_⟩
    intro tri htri v hv
    simp only [new_quad, List.mem_cons, List.not_mem_nil, or_false] at htri
    rcases htri with rfl | rfl <;>
      simp only [List.mem_cons, List.not_mem_nil, or_false] at hv <;>
      rcases hv with rfl | rfl | rfl
    · exact Or.inl (Or.inr (Or.inr ⟨rfl, hc⟩))
    · exact Or.inl (Or.inl ⟨rfl, ha⟩)
    · exact Or.inr (dot_lerp_param _ _ _ hnba)
    · exact Or.inl (Or.inr (Or.inr ⟨rfl, hc⟩))
    · exact Or.inr (dot_lerp_param _ _ _ hnba)
    · exact Or.inr (dot_lerp_param _ _ _ hnbc)
  · have ha' : t.a.position.dot n < 1 := ha
    have hb' : t.b.position.dot n < 1 := hb
    have hc' : t.c.position.dot n > 1 := hc
    have hnca : t.c.position.dot n ≠ t.a.position.dot n := by
      intro heq; linarith
    have hncb : t.c.position.dot n ≠ t.b.position.dot n := by
      intro heq; linarith
    refine ⟨_, slice_case_quad_c t n ⟨ha, hb, hc⟩, by simp [new_quad], ?_⟩
    intro tri htri v hv
    simp only [new_quad, List.mem_cons, List.not_mem_nil, or_false] at htri
    rcases htri with rfl | rfl <;>
      simp only [List.mem_cons, List.not_mem_nil, or_false] at hv <;>
      rcases hv with rfl | rfl | rfl
    · exact Or.inl (Or.inl ⟨rfl, ha⟩)
    · exact Or.inl (Or.inr (Or.inl ⟨rfl, hb⟩))
    · exact Or.inr (dot_lerp_param _ _ _ hncb)
    · exact Or.inl (Or.inl ⟨rfl, ha⟩)
    · exact Or.inr (dot_lerp_param _ _ _ hncb)
    · exact Or.inr (dot_lerp_param _ _ _ hnca)

/-- Witness for `one_outside_emits_quad` at `oneOutTri`. -/
theorem one_outside_emits_quad_witness :
    exactlyOneOutside oneOutTri vX ∧
      ∃ l, slice oneOutTri vX = some l ∧ l.length = 2 ∧
        ∀ tri ∈ l, ∀ v ∈ [tri.a, tri.b, tri.c],
          retainedInside oneOutTri vX v ∨ v.position.dot vX = 1 :=
  ⟨by decide, one_outside_emits_quad oneOutTri vX (by decide)⟩

/-- A triangle with vertices `b`, `c` strictly outside the `+X` plane and
`a` strictly inside. -/
def twoOutTri : Triangle :=
  ⟨mkV ⟨0, 0, 0⟩ 1, mkV ⟨2, 0, 0⟩ 1, mkV ⟨2, 1, 0⟩ 1⟩

/-- C3 counterexample: at `twoOutTri` (exactly two vertices outside the
`+X` plane) the clipper emits exactly ONE output triangle — built by
`new_triangle` — not the two triangles the claim states. -/
theorem two_outside_counterexample :
    exactlyTwoOutside twoOutTri vX ∧
      (slice twoOutTri vX).map List.length = some 1 ∧
      (slice twoOutTri vX).map List.length ≠ some 2 := by
  refine ⟨by decide, by decide, by decide⟩

/-- C3 (amended): a triangle with exactly two vertices strictly outside one
plane and one strictly inside yields exactly one output triangle — the
corner wedge `(inside, ab, ac)` built by `new_triangle`, anchored at the
single inside vertex: every emitted vertex is either that strictly inside
original vertex or a new interpolated vertex lying exactly on the plane
(`dot = 1`). -/
theorem two_outside_emits_triangle (t : Triangle) (n : Vec3)
    (h : exactlyTwoOutside t n) :
    ∃ l, slice t n = some l ∧ l.length = 1 ∧
      ∀ tri ∈ l, ∀ v ∈ [tri.a, tri.b, tri.c],
        retainedInside t n v ∨ v.position.dot n = 1 := by
  rcases h with ⟨ha, hb, hc⟩ | ⟨ha, hb, hc⟩ | ⟨ha, hb, hc⟩
  · have ha' : t.a.position.dot n < 1 := ha
    have hb' : t.b.position.dot n > 1 := hb
    have hc' : t.c.position.dot n > 1 := hc
    have hnab : t.a.position.dot n ≠ t.b.position.dot n := by
      intro heq; linarith
    have hnac : t.a.position.dot n ≠ t.c.position.dot n := by
      intro heq; linarith
    refine ⟨_, slice_case_tri_a t n ⟨ha, hb, hc⟩, by simp [new_triangle], ?_⟩
    intro tri htri v hv
    simp only [new_triangle, List.mem_cons, List.not_mem_nil, or_false] at htri
    subst htri
    simp only [List.mem_cons, List.not_mem_nil, or_false] at hv
    rcases hv with rfl | rfl | rfl
    · exact Or.inl (Or.inl ⟨rfl, ha⟩)
    · exact Or.inr (dot_lerp_param _ _ _ hnab)
    · exact Or.inr (dot_lerp_param _ _ _ hnac)
  · have ha' : t.a.position.dot n > 1 := ha
    have hb' : t.b.position.dot n < 1 := hb
    have hc' : t.c.position.dot n > 1 := hc
    have hnbc : t.b.position.dot n ≠ t.c.position.dot n := by
      intro heq; linarith
    have hnba : t.b.position.dot n ≠ t.a.position.dot n := by
      intro heq; linarith
    refine ⟨_, slice_case_tri_b t n ⟨ha, hb, hc⟩, by simp [new_triangle], ?_⟩
    intro tri htri v hv
    simp only [new_triangle, List.mem_cons, List.not_mem_nil, or_false] at htri
    subst htri
    simp only [List.mem_cons, List.not_mem_nil, or_false] at hv
    rcases hv with rfl | rfl | rfl
    · exact Or.inl (Or.inr (Or.inl ⟨rfl, hb⟩))
    · exact Or.inr (dot_lerp_param _ _ _ hnbc)
    · exact Or.inr (dot_lerp_param _ _ _ hnba)
  · have ha' : t.a.position.dot n > 1 := ha
    have hb' : t.b.position.dot n > 1 := hb
    have hc' : t.c.position.dot n < 1 := hc
    have hnca : t.c.position.dot n ≠ t.a.position.dot n := by
      intro heq; linarith
    have hncb : t.c.position.dot n ≠ t.b.position.dot n := by
      intro heq; linarith
    refine ⟨_, slice_case_tri_c t n ⟨ha, hb, hc⟩, by simp [new_triangle], ?_⟩
    intro tri htri v hv
    simp only [new_triangle, List.mem_cons, List.not_mem_nil, or_false] at htri
    subst htri
    simp only [List.mem_cons, List.not_mem_nil, or_false] at hv
    rcases hv with rfl | rfl | rfl
    · exact Or.inl (Or.inr (Or.inr ⟨rfl, hc⟩))
    · exact Or.inr (dot_lerp_param _ _ _ hnca)
    · exact Or.inr (dot_lerp_param _ _ _ hncb)

/-- Witness for `two_outside_emits_triangle` at `twoOutTri`. -/
theorem two_outside_emits_triangle_witness :
    exactlyTwoOutside twoOutTri vX ∧
      ∃ l, slice twoOutTri vX = some l ∧ l.length = 1 ∧
        ∀ tri ∈ l, ∀ v ∈ [tri.a, tri.b, tri.c],
          retainedInside twoOutTri vX v ∨ v.position.dot vX = 1 :=
  ⟨by decide, two_outside_emits_triangle twoOutTri vX (by decide)⟩

/-! ### C1: containment of clipped output in the unit cube -/

/-- All three vertex dots of `t` against `n` are at most 1. -/
def triDotLE (t : Triangle) (n : Vec3) : Prop :=
  fA t n ≤ 1 ∧ fB t n ≤ 1 ∧ fC t n ≤ 1

/-- No vertex of `t` has dot exactly 1 against `n` — the situation in which
the strict branch patterns of `slice` all fail. -/
def noBoundaryVertex (t : Triangle) (n : Vec3) : Bool :=
  decide (fA t n ≠ 1 ∧ fB t n ≠ 1 ∧ fC t n ≠ 1)

/-- The clipping run never meets a vertex lying exactly on the plane
currently being clipped: checked for the working triangle list at each of
the six planes in sequence. -/
def goodRun : List Triangle → List Vec3 → Bool
  | _, [] => true
  | ts, n :: rest =>
    ts.all (fun t => noBoundaryVertex t n) && goodRun (clipStep ts n) rest

/-- If `slice` declines to slice and no vertex sits exactly on the plane,
all three vertices are strictly inside, hence dot-bounded. -/
lemma slice_none_ltOne (t : Triangle) (n : Vec3) (h : slice t n = none)
    (hnb : noBoundaryVertex t n = true) : triDotLE t n := by
  have hb : fA t n ≠ 1 ∧ fB t n ≠ 1 ∧ fC t n ≠ 1 := by
    simpa [noBoundaryVertex] using hnb
  obtain ⟨na, nb, nc⟩ := hb
  unfold slice at h
  split_ifs at h with h1 h2 h3 h4 h5 h6 h7
  rcases lt_or_gt_of_ne na with ha | ha <;>
    rcases lt_or_gt_of_ne nb with hbb | hbb <;>
    rcases lt_or_gt_of_ne nc with hcc | hcc <;>
    first
      | exact ⟨le_of_lt ha, le_of_lt hbb, le_of_lt hcc⟩
      | exact (h1 ⟨ha, hbb, hcc⟩).elim
      | exact (h2 ⟨ha, hbb, hcc⟩).elim
      | exact (h3 ⟨ha, hbb, hcc⟩).elim
      | exact (h4 ⟨ha, hbb, hcc⟩).elim
      | exact (h5 ⟨ha, hbb, hcc⟩).elim
      | exact (h6 ⟨ha, hbb, hcc⟩).elim
      | exact (h7 ⟨ha, hbb, hcc⟩).elim

/-- Triangles emitted by `new_triangle` have all dots against the clipped
plane at most 1 (the anchor is strictly inside, the new vertices sit on the
plane). -/
lemma new_triangle_dotLE (a b c : Vertex) (n : Vec3)
    (ha : a.position.dot n < 1) (hb : 1 < b.position.dot n)
    (hc : 1 < c.position.dot n) :
    ∀ tr ∈ new_triangle a b c (a.position.dot n) (b.position.dot n)
      (c.position.dot n), triDotLE tr n := by
  intro tr htr
  simp only [new_triangle, List.mem_singleton] at htr
  subst htr
  have hab : a.position.dot n ≠ b.position.dot n := by intro heq; linarith
  have hac : a.position.dot n ≠ c.position.dot n := by intro heq; linarith
  exact ⟨le_of_lt ha, le_of_eq (dot_lerp_param _ _ _ hab),
    le_of_eq (dot_lerp_param _ _ _ hac)⟩

/-- Triangles emitted by `new_quad` have all dots against the clipped plane
at most 1. -/
lemma new_quad_dotLE (a b c : Vertex) (n : Vec3)
    (ha : 1 < a.position.dot n) (hb : b.position.dot n < 1)
    (hc : c.position.dot n < 1) :
    ∀ tr ∈ new_quad a b c (a.position.dot n) (b.position.dot n)
      (c.position.dot n), triDotLE tr n := by
  intro tr htr
  simp only [new_quad, List.mem_cons, List.not_mem_nil, or_false] at htr
  have hab : a.position.dot n ≠ b.position.dot n := by intro heq; linarith
  have hac : a.position.dot n ≠ c.position.dot n := by intro heq; linarith
  rcases htr with rfl | rfl
  · exact ⟨le_of_lt hb, le_of_lt hc, le_of_eq (dot_lerp_param _ _ _ hac)⟩
  · exact ⟨le_of_lt hb, le_of_eq (dot_lerp_param _ _ _ hac),
      le_of_eq (dot_lerp_param _ _ _ hab)⟩

/-- Everything a successful `slice` emits is dot-bounded against the plane
it clipped. -/
lemma slice_some_dotLE (t : Triangle) (n : Vec3) (l : List Triangle)
    (h : slice t n = some l) : ∀ tr ∈ l, triDotLE tr n := by
  unfold slice at h
  split_ifs at h with h1 h2 h3 h4 h5 h6 h7 <;>
    injection h with h <;> subst h
  · intro tr htr
    exact absurd htr (List.not_mem_nil tr)
  · exact new_triangle_dotLE t.a t.b t.c n h2.1 h2.2.1 h2.2.2
  · exact new_triangle_dotLE t.b t.c t.a n h3.2.1 h3.2.2 h3.1
  · exact new_triangle_dotLE t.c t.a t.b n h4.2.2 h4.1 h4.2.1
  · exact new_quad_dotLE t.a t.b t.c n h5.1 h5.2.1 h5.2.2
  · exact new_quad_dotLE t.b t.c t.a n h6.2.1 h6.2.2 h6.1
  · exact new_quad_dotLE t.c t.a t.b n h7.2.2 h7.1 h7.2.1

/-- `new_triangle` interpolates with parameters in `[0, 1]`, so any dot
bound holding at all three input vertices (for an arbitrary axis `m`) holds
for everything it emits. -/
lemma new_triangle_preserve (a b c : Vertex) (m n : Vec3)
    (ha : a.position.dot n < 1) (hb : 1 < b.position.dot n)
    (hc : 1 < c.position.dot n)
    (hma : a.position.dot m ≤ 1) (hmb : b.position.dot m ≤ 1)
    (hmc : c.position.dot m ≤ 1) :
    ∀ tr ∈ new_triangle a b c (a.position.dot n) (b.position.dot n)
      (c.position.dot n), triDotLE tr m := by
  intro tr htr
  simp only [new_triangle, List.mem_singleton] at htr
  subst htr
  obtain ⟨hb0, hb1⟩ := param_unit (a.position.dot n) (b.position.dot n)
    (Or.inl ⟨ha, hb⟩)
  obtain ⟨hc0, hc1⟩ := param_unit (a.position.dot n) (c.position.dot n)
    (Or.inl ⟨ha, hc⟩)
  exact ⟨hma, lerp_dot_le _ _ _ _ hma hmb hb0 hb1,
    lerp_dot_le _ _ _ _ hma hmc hc0 hc1⟩

/-- Same preservation property for `new_quad`. -/
lemma new_quad_preserve (a b c : Vertex) (m n : Vec3)
    (ha : 1 < a.position.dot n) (hb : b.position.dot n < 1)
    (hc : c.position.dot n < 1)
    (hma : a.position.dot m ≤ 1) (hmb : b.position.dot m ≤ 1)
    (hmc : c.position.dot m ≤ 1) :
    ∀ tr ∈ new_quad a b c (a.position.dot n) (b.position.dot n)
      (c.position.dot n), triDotLE tr m := by
  intro tr htr
  simp only [new_quad, List.mem_cons, List.not_mem_nil, or_false] at htr
  obtain ⟨hb0, hb1⟩ := param_unit (a.position.dot n) (b.position.dot n)
    (Or.inr ⟨hb, ha⟩)
  obtain ⟨hc0, hc1⟩ := param_unit (a.position.dot n) (c.position.dot n)
    (Or.inr ⟨hc, ha⟩)
  rcases htr with rfl | rfl
  · exact ⟨hmb, hmc, lerp_dot_le _ _ _ _ hma hmc hc0 hc1⟩
  · exact ⟨hmb, lerp_dot_le _ _ _ _ hma hmc hc0 hc1,
      lerp_dot_le _ _ _ _ hma hmb hb0 hb1⟩

/-- A successful `slice` against any plane preserves a dot bound already
holding for the input triangle against an arbitrary axis `m`. -/
lemma slice_some_preserve (m : Vec3) (t : Triangle) (n : Vec3)
    (l : List Triangle) (h : slice t n = some l) (hm : triDotLE t m) :
    ∀ tr ∈ l, triDotLE tr m := by
  obtain ⟨hma, hmb, hmc⟩ := hm
  unfold slice at h
  split_ifs at h with h1 h2 h3 h4 h5 h6 h7 <;>
    injection h with h <;> subst h
  · intro tr htr
    exact absurd htr (List.not_mem_nil tr)
  · exact new_triangle_preserve t.a t.b t.c m n h2.1 h2.2.1 h2.2.2 hma hmb hmc
  · exact new_triangle_preserve t.b t.c t.a m n h3.2.1 h3.2.2 h3.1 hmb hmc hma
  · exact new_triangle_preserve t.c t.a t.b m n h4.2.2 h4.1 h4.2.1 hmc hma hmb
  · exact new_quad_preserve t.a t.b t.c m n h5.1 h5.2.1 h5.2.2 hma hmb hmc
  · exact new_quad_preserve t.b t.c t.a m n h6.2.1 h6.2.2 h6.1 hmb hmc hma
  · exact new_quad_preserve t.c t.a t.b m n h7.2.2 h7.1 h7.2.1 hmc hma hmb

/-- One plane pass yields triangles dot-bounded against that plane,
provided no working triangle has a vertex exactly on it. -/
lemma clipStep_dotLE (n : Vec3) (ts : List Triangle)
    (hgood : ∀ t ∈ ts, noBoundaryVertex t n = true) :
    ∀ tr ∈ clipStep ts n, triDotLE tr n := by
  intro tr htr
  rw [clipStep, List.mem_flatMap] at htr
  obtain ⟨t, ht, htr⟩ := htr
  rcases hs : slice t n with _ | l
  · rw [hs] at htr
    simp only [Option.getD_none, List.mem_singleton] at htr
    subst htr
    exact slice_none_ltOne tr n hs (hgood tr ht)
  · rw [hs] at htr
    simp only [Option.getD_some] at htr
    exact slice_some_dotLE t n l hs tr htr

/-- One plane pass preserves dot bounds against any axis. -/
lemma clipStep_preserve (m n : Vec3) (ts : List Triangle)
    (h : ∀ t ∈ ts, triDotLE t m) : ∀ tr ∈ clipStep ts n, triDotLE tr m := by
  intro tr htr
  rw [clipStep, List.mem_flatMap] at htr
  obtain ⟨t, ht, htr⟩ := htr
  rcases hs : slice t n with _ | l
  · rw [hs] at htr
    simp only [Option.getD_none, List.mem_singleton] at htr
    subst htr
    exact h tr ht
  · rw [hs] at htr
    simp only [Option.getD_some] at htr
    exact slice_some_preserve m t n l hs (h t ht) tr htr

/-- Folding the remaining planes preserves dot bounds against any axis. -/
lemma foldl_clipStep_preserve (m : Vec3) (axes : List Vec3) :
    ∀ ts, (∀ t ∈ ts, triDotLE t m) →
      ∀ tr ∈ axes.foldl clipStep ts, triDotLE tr m := by
  induction axes with
  | nil =>
    intro ts h tr htr
    exact h tr htr
  | cons n rest ih =>
    intro ts h tr htr
    rw [List.foldl_cons] at htr
    exact ih (clipStep ts n) (clipStep_preserve m n ts h) tr htr

/-- Under a boundary-free run, every triangle produced by the sequential
clipping fold is dot-bounded against every plane of the sequence. -/
lemma goodRun_containment (axes : List Vec3) :
    ∀ ts, goodRun ts axes = true →
      ∀ tr ∈ axes.foldl clipStep ts, ∀ m ∈ axes, triDotLE tr m := by
  induction axes with
  | nil =>
    intro ts _ tr _ m hm
    exact absurd hm (List.not_mem_nil m)
  | cons n rest ih =>
    intro ts hg tr htr m hm
    simp only [goodRun, Bool.and_eq_true, List.all_eq_true] at hg
    rw [List.foldl_cons] at htr
    rcases List.mem_cons.mp hm with rfl | hm'
    · exact foldl_clipStep_preserve m rest (clipStep ts m)
        (clipStep_dotLE m ts hg.1) tr htr
    · exact ih (clipStep ts n) hg.2 tr htr m hm'

/-- Dot bounds against all six face axes pin the position inside the unit
cube. -/
lemma inside_of_dots (p : Vec3) (h1 : p.dot vX ≤ 1) (h2 : p.dot vY ≤ 1)
    (h3 : p.dot vZ ≤ 1) (h4 : p.dot vNegX ≤ 1) (h5 : p.dot vNegY ≤ 1)
    (h6 : p.dot vNegZ ≤ 1) : is_inside_unit_cube p = true := by
  rw [dot_vX] at h1
  rw [dot_vY] at h2
  rw [dot_vZ] at h3
  rw [dot_vNegX] at h4
  rw [dot_vNegY] at h5
  rw [dot_vNegZ] at h6
  simp only [is_inside_unit_cube, decide_eq_true_eq]
  exact ⟨abs_le.mpr ⟨by linarith, h1⟩, abs_le.mpr ⟨by linarith, h2⟩,
    abs_le.mpr ⟨by linarith, h3⟩⟩

/-- C1 (amended): for a source triangle whose clipping run never meets a
vertex with dot exactly 1 against the plane currently being clipped
(`goodRun`), every vertex position of every triangle the pipeline emits
lies within `[-1,1]` on each of the three axes of projector-local space. -/
theorem containment_of_no_boundary (t : Triangle)
    (hg : goodRun [t] axii = true) :
    ∀ tr ∈ processTriangle t, ∀ v ∈ [tr.a, tr.b, tr.c],
      is_inside_unit_cube v.position = true := by
  intro tr htr v hv
  unfold processTriangle at htr
  split_ifs at htr with h1 h2 h3
  · exact absurd htr (List.not_mem_nil tr)
  · exact absurd htr (List.not_mem_nil tr)
  · simp only [List.mem_singleton] at htr
    subst htr
    simp only [Bool.and_eq_true] at h3
    simp only [List.mem_cons, List.not_mem_nil, or_false] at hv
    rcases hv with rfl | rfl | rfl
    · exact h3.1.1
    · exact h3.1.2
    · exact h3.2
  · unfold clipAgainstPlanes at htr
    have hall := goodRun_containment axii [t] hg tr htr
    have hX := hall vX (by simp [axii])
    have hY := hall vY (by simp [axii])
    have hZ := hall vZ (by simp [axii])
    have hNX := hall vNegX (by simp [axii])
    have hNY := hall vNegY (by simp [axii])
    have hNZ := hall vNegZ (by simp [axii])
    simp only [List.mem_cons, List.not_mem_nil, or_false] at hv
    rcases hv with rfl | rfl | rfl
    · exact inside_of_dots _ hX.1 hY.1 hZ.1 hNX.1 hNY.1 hNZ.1
    · exact inside_of_dots _ hX.2.1 hY.2.1 hZ.2.1 hNX.2.1 hNY.2.1 hNZ.2.1
    · exact inside_of_dots _ hX.2.2 hY.2.2 hZ.2.2 hNX.2.2 hNY.2.2 hNZ.2.2

/-- C1 counterexample: `boundaryTri` has a vertex exactly on the `+X` plane
and another at `x = 2`, strictly outside; every strict branch pattern of
`slice` misses it at every plane, so the pipeline emits the triangle
unchanged with a vertex far outside `[-1,1]³`. -/
theorem containment_counterexample :
    processTriangle boundaryTri = [boundaryTri] ∧
      is_inside_unit_cube boundaryTri.b.position = false ∧
      boundaryTri.b.position.x = 2 := by
  refine ⟨by decide, by decide, by decide⟩

/-- Witness for `containment_of_no_boundary` at `twoOutTri`, which takes
the sequential clipping path. -/
theorem containment_of_no_boundary_witness :
    goodRun [twoOutTri] axii = true ∧
      ∀ tr ∈ processTriangle twoOutTri, ∀ v ∈ [tr.a, tr.b, tr.c],
        is_inside_unit_cube v.position = true :=
  ⟨by decide, containment_of_no_boundary twoOutTri (by decide)⟩

end MeshDecal
